import Mathlib

/-!
A shallow embedding of the tree-comparison and declaration-query engine of
`src/packages/helpers/lib/class/explorer.ts` (the `Explorer` class).

The external TypeScript parser (`createSourceFile`) is out of scope of the
repository; the engine only consumes the full syntax tree it produces.  We
model a parsed node as a rose tree carrying the node's `SyntaxKind`, its
source text (`getText()`), and its full-syntax-tree children (`getChildren()`,
which include keyword and punctuation tokens).  The parser itself is a
parameter `parse : String → Node`; concrete theorems instantiate it with a
finite table holding the trees the real parser produces for the fragments
under test.
-/

/-- The subset of the TS `SyntaxKind` enumeration used by the engine. -/
inductive SKind where
  | unknown
  | sourceFile
  | synList
  | endOfFileToken
  | variableStatement
  | variableDeclarationList
  | variableDeclaration
  | identifier
  | numericLiteral
  | stringLiteral
  | constKeyword
  | letKeyword
  | functionKeyword
  | interfaceKeyword
  | typeKeyword
  | classKeyword
  | returnKeyword
  | numberKeyword
  | stringKeyword
  | booleanKeyword
  | voidKeyword
  | semicolonToken
  | commaToken
  | colonToken
  | equalsToken
  | questionToken
  | openBraceToken
  | closeBraceToken
  | openParenToken
  | closeParenToken
  | barToken
  | ampersandToken
  | functionDeclaration
  | block
  | returnStatement
  | typeAliasDeclaration
  | interfaceDeclaration
  | classDeclaration
  | methodDeclaration
  | methodSignature
  | propertyDeclaration
  | propertySignature
  | parameter
  | typeLiteral
  | unionType
  | intersectionType
  | typeReference
  | arrowFunction
  | functionExpression
  deriving DecidableEq, Repr

/-- A node of the TS full syntax tree: kind tag, source text (`getText()`),
and the ordered full-syntax children (`getChildren()`). -/
inductive Node where
  | mk (kind : SKind) (text : String) (children : List Node)

def Node.kind : Node → SKind
  | .mk k _ _ => k

def Node.text : Node → String
  | .mk _ t _ => t

def Node.children : Node → List Node
  | .mk _ _ ch => ch

@[simp] theorem Node.kind_mk (k : SKind) (t : String) (ch : List Node) :
    (Node.mk k t ch).kind = k := rfl

@[simp] theorem Node.text_mk (k : SKind) (t : String) (ch : List Node) :
    (Node.mk k t ch).text = t := rfl

@[simp] theorem Node.children_mk (k : SKind) (t : String) (ch : List Node) :
    (Node.mk k t ch).children = ch := rfl

/-- A stand-in node used where the TS code would index past the end of a
node list (our theorems never depend on its contents). -/
def nodeNull : Node := Node.mk SKind.unknown "" []

theorem Node.sizeOf_children_lt (n : Node) : sizeOf n.children < sizeOf n := by
  cases n with
  | mk k t ch =>
    simp [Node.children]
    try omega

theorem sizeOf_filter_le (p : Node → Bool) (l : List Node) :
    sizeOf (List.filter p l) ≤ sizeOf l := by
  induction l with
  | nil => simp [List.filter]
  | cons x xs ih =>
    cases hp : p x
    · simp only [List.filter, hp]
      simp
      omega
    · simp only [List.filter, hp]
      simp
      omega

/-- `filterChildren` of `Explorer.matches`: drop `SemicolonToken` children. -/
def filterChildren (n : Node) : List Node :=
  n.children.filter (fun c => c.kind != SKind.semicolonToken)

theorem sizeOf_filterChildren_lt (n : Node) : sizeOf (filterChildren n) < sizeOf n :=
  lt_of_le_of_lt (sizeOf_filter_le _ _) (Node.sizeOf_children_lt n)

mutual
/-- `compareNodes` of `Explorer.matches`: kinds must agree; leaves (no
children after dropping semicolons) compare raw `getText()`; otherwise the
filtered child lists must have equal length and compare pointwise. -/
def compareNodes (n1 n2 : Node) : Bool :=
  if n1.kind != n2.kind then false
  else
    let children1 := filterChildren n1
    let children2 := filterChildren n2
    if children1.length == 0 && children2.length == 0 then n1.text == n2.text
    else if children1.length != children2.length then false
    else compareList children1 children2
termination_by sizeOf n1
decreasing_by
  exact sizeOf_filterChildren_lt n1

/-- The `for` loop of `compareNodes`, on equal-length lists. -/
def compareList (l1 l2 : List Node) : Bool :=
  match l1, l2 with
  | [], [] => true
  | x :: xs, y :: ys => compareNodes x y && compareList xs ys
  | _, _ => false
termination_by sizeOf l1
decreasing_by
  all_goals simp <;> omega
end

mutual
/-- Specification-side normal form of a tree: drop semicolon tokens
everywhere and forget the stored text of non-leaf nodes (their text is just
the concatenation of their descendants' text plus layout whitespace, which
the comparison never reads).  Two trees are `matches`-equivalent exactly when
they agree on node kinds and leaf text after this normalization. -/
def strip (n : Node) : Node :=
  let fc := filterChildren n
  Node.mk n.kind (if fc.length == 0 then n.text else "") (stripList fc)
termination_by sizeOf n
decreasing_by
  exact sizeOf_filterChildren_lt n

/-- `strip` mapped over a list of children. -/
def stripList (l : List Node) : List Node :=
  match l with
  | [] => []
  | x :: xs => strip x :: stripList xs
termination_by sizeOf l
decreasing_by
  all_goals simp <;> omega
end

theorem stripList_nil : stripList [] = [] := by
  unfold stripList
  rfl

theorem stripList_cons (x : Node) (xs : List Node) :
    stripList (x :: xs) = strip x :: stripList xs := by
  conv_lhs => unfold stripList

theorem stripList_eq_nil_iff (l : List Node) : stripList l = [] ↔ l = [] := by
  cases l with
  | nil => simp [stripList_nil]
  | cons x xs => simp [stripList_cons]

theorem stripList_length (l : List Node) : (stripList l).length = l.length := by
  induction l with
  | nil => simp [stripList_nil]
  | cons x xs ih => simp [stripList_cons, ih]

theorem strip_compare_aux (N : Nat) :
    (∀ n1 n2 : Node, sizeOf n1 ≤ N → strip n1 = strip n2 → compareNodes n1 n2 = true) ∧
    (∀ l1 l2 : List Node, sizeOf l1 ≤ N → stripList l1 = stripList l2 →
      compareList l1 l2 = true) := by
  induction N using Nat.strong_induction_on with
  | _ N ih =>
    constructor
    · intro n1 n2 hs h
      unfold strip at h
      rw [Node.mk.injEq] at h
      obtain ⟨hk, ht, hc⟩ := h
      rw [compareNodes]
      rw [hk]
      simp only [bne_self_eq_false, Bool.false_eq_true, if_false]
      by_cases hnil : filterChildren n1 = []
      · have hnil2 : filterChildren n2 = [] := by
          rw [hnil, stripList_nil] at hc
          exact (stripList_eq_nil_iff _).mp hc.symm
        have htext : n1.text = n2.text := by
          simpa [hnil, hnil2] using ht
        simp [hnil, hnil2, htext]
      · have hlen : (filterChildren n1).length = (filterChildren n2).length := by
          have := congrArg List.length hc
          simpa [stripList_length] using this
        have hnil2 : filterChildren n2 ≠ [] := by
          intro h0
          rw [h0] at hlen
          exact hnil (List.eq_nil_of_length_eq_zero hlen)
        have h1 : ((filterChildren n1).length == 0) = false := by
          simp [List.length_eq_zero, hnil]
        have h2 : ((filterChildren n2).length == 0) = false := by
          simp [List.length_eq_zero, hnil2]
        simp only [h1, h2, Bool.false_and, Bool.false_eq_true, if_false, hlen,
          bne_self_eq_false]
        exact (ih (sizeOf (filterChildren n1))
          (lt_of_lt_of_le (sizeOf_filterChildren_lt n1) hs)).2 _ _ (le_refl _) hc
    · intro l1 l2 hs h
      cases l1 with
      | nil =>
        cases l2 with
        | nil => rw [compareList]
        | cons y ys =>
          rw [stripList_nil, stripList_cons] at h
          exact absurd h.symm (List.cons_ne_nil _ _)
      | cons x xs =>
        cases l2 with
        | nil =>
          rw [stripList_nil, stripList_cons] at h
          exact absurd h (List.cons_ne_nil _ _)
        | cons y ys =>
          rw [stripList_cons, stripList_cons, List.cons.injEq] at h
          rw [compareList]
          have c1 : compareNodes x y = true := by
            have hlt : sizeOf x < N := by
              have hxl : sizeOf x < sizeOf (x :: xs) := by simp <;> omega
              omega
            exact (ih (sizeOf x) hlt).1 x y (le_refl _) h.1
          have c2 : compareList xs ys = true := by
            have hlt : sizeOf xs < N := by
              have hxl : sizeOf xs < sizeOf (x :: xs) := by simp <;> omega
              omega
            exact (ih (sizeOf xs) hlt).2 xs ys (le_refl _) h.2
          simp [c1, c2]

/-- Normalized-equal trees satisfy `compareNodes` (whitespace differences
never reach the tree; trailing semicolons are removed by `strip`). -/
theorem compareNodes_of_strip_eq (n1 n2 : Node) (h : strip n1 = strip n2) :
    compareNodes n1 n2 = true :=
  (strip_compare_aux (sizeOf n1)).1 n1 n2 (le_refl _) h

/-- `compareNodes` is reflexive. -/
theorem compareNodes_refl (n : Node) : compareNodes n n = true :=
  compareNodes_of_strip_eq n n rfl

/-! ### The typed accessors of the TS node API

The engine reads typed properties (`statements`, `declarationList`,
`declarations`, `name`, `type`, `members`, ...).  In the full syntax tree
these are fixed positions in the child list; we model each property by its
documented layout:
* `SourceFile`   children: `[SyntaxList statements, EndOfFileToken]`
* `VariableStatement` children: `[VariableDeclarationList, SemicolonToken?]`
* `VariableDeclarationList` children: `[const/let keyword, SyntaxList of
  declarations separated by CommaTokens]`
* `VariableDeclaration` / `Parameter` / `PropertySignature` /
  `PropertyDeclaration` children: `[name, QuestionToken?, ColonToken, type?,
  EqualsToken, ...?]`
* `InterfaceDeclaration` / `ClassDeclaration` / `TypeLiteral`: the member
  list is the `SyntaxList` between the braces.
-/

def Node.childAt (n : Node) (i : Nat) : Node := n.children.getD i nodeNull

/-- `SourceFile.statements`: the children of the leading `SyntaxList`. -/
def Node.statements (n : Node) : List Node := (n.childAt 0).children

/-- `VariableStatement.declarationList`. -/
def Node.declarationList (n : Node) : Node := n.childAt 0

/-- `VariableDeclarationList.declarations`: the `SyntaxList` entries without
the comma separators. -/
def Node.declarations (n : Node) : List Node :=
  (n.childAt 1).children.filter (fun c => c.kind != SKind.commaToken)

/-- The child following the first token of kind `k`, if any. -/
def afterTok : List Node → SKind → Option Node
  | [], _ => none
  | x :: xs, k => if x.kind = k then xs.head? else afterTok xs k

/-- The `.type` property of a declaration-like node: the node after the
`ColonToken` among its top-level children (parameter/member colons are nested
one level down and are not visible here). -/
def Node.typeAnnot (n : Node) : Option Node := afterTok n.children SKind.colonToken

/-- The `.initializer` property: the node after the `EqualsToken`. -/
def Node.declInit (n : Node) : Option Node := afterTok n.children SKind.equalsToken

/-- `TypeAliasDeclaration.type`: the node after the `=` (always present in a
well-formed alias; `nodeNull` otherwise). -/
def Node.aliasType (n : Node) : Node := (afterTok n.children SKind.equalsToken).getD nodeNull

/-- `.members` of an interface/class/type-literal: the `SyntaxList` between
the braces. -/
def Node.members (n : Node) : List Node :=
  ((n.children.find? (fun c => c.kind = SKind.synList)).getD nodeNull).children

/-- `.parameters` of a function-like node: the `SyntaxList` between the
parentheses, commas removed. -/
def Node.parameters (n : Node) : List Node :=
  (((n.children.find? (fun c => c.kind = SKind.synList)).getD nodeNull).children).filter
    (fun c => c.kind != SKind.commaToken)

/-- Presence of the `?` optional marker (`questionToken !== undefined`). -/
def Node.hasQuestionToken (n : Node) : Bool :=
  n.children.any (fun c => c.kind = SKind.questionToken)

/-- `(vs.declarationList.declarations[0].name as Identifier).text` for a
`VariableStatement` node. -/
def firstDeclName (vs : Node) : String :=
  ((vs.declarationList.declarations.headD nodeNull).childAt 0).text

/-- `(f as FunctionDeclaration).name?.text`: the identifier after the
`function` keyword. -/
def fnName (f : Node) : String := (f.childAt 1).text

/-! ### Construction (`createTree`, the `Explorer` constructor) -/

/-- The wrapping context `createTree` chooses for a bare string fragment. -/
inductive CreateKind where
  | typeReference
  | methodDeclaration
  | unknown
  deriving DecidableEq, Repr

/-- JS-style whitespace test for `.trim()` (the fragments in play contain
only ASCII whitespace). -/
def isJsWs (c : Char) : Bool := c = ' ' || c = '\t' || c = '\n' || c = '\r'

/-- `code.trim()`: strip leading and trailing whitespace.  (Defined over the
character list so that it evaluates by kernel reduction.) -/
def strTrim (s : String) : String :=
  String.mk (((s.data.dropWhile isJsWs).reverse.dropWhile isJsWs).reverse)

/-- `createTree` on a string (`explorer.ts`, second revision): blank text
gives no tree; a `MethodDeclaration` request wraps the text in
`class _ { ... }` and extracts the first method member; a `TypeReference`
request wraps it in `let _: ...;` and extracts the declared type; otherwise
the text is parsed as-is, and a single-statement file is unwrapped to that
statement.  `parse` is the external TS parser. -/
def createTreeStr (parse : String → Node) (code : String) (k : CreateKind) : Option Node :=
  if strTrim code = "" then none
  else
    match k with
    | CreateKind.methodDeclaration =>
      let sourceFile := parse ("class _ \x7b " ++ code ++ " \x7d")
      let classDecl := sourceFile.statements.headD nodeNull
      classDecl.members.find? (fun m => m.kind = SKind.methodDeclaration)
    | CreateKind.typeReference =>
      let sourceFile := parse ("let _: " ++ code ++ ";")
      let varStatement := sourceFile.statements.headD nodeNull
      let declaration := varStatement.declarationList.declarations.headD nodeNull
      declaration.typeAnnot
    | CreateKind.unknown =>
      let sourceFile := parse code
      some (if sourceFile.statements.length = 1 then sourceFile.statements.headD nodeNull
            else sourceFile)

/-- `createTree` on a node argument: kept as-is unless its source text is
blank.  This is also what `new Explorer(node)` stores. -/
def createTreeNode (n : Node) : Option Node :=
  if strTrim n.text = "" then none else some n

/-- Wrapping an existing node in a fresh handle (`new Explorer(node)`). -/
def explorerOfNode (n : Node) : Option Node := createTreeNode n

/-- A runtime argument handed to the `Explorer` constructor: a string, a
syntax-tree node, or any other value.  A non-node object has no `getText`
method, so the constructor's `code.getText()` call raises a `TypeError` for
the third case; we model that as an `Except.error`. -/
inductive ExplorerInput where
  | str (s : String)
  | node (n : Node)
  | other

/-- The `Explorer` constructor: `this.tree = createTree(tree, kind)`.  The
result is the stored tree (`none` = the empty handle), or an error for a
value that is neither source text nor a syntax-tree node. -/
def explorerNew (parse : String → Node) :
    ExplorerInput → CreateKind → Except String (Option Node)
  | ExplorerInput.str s, k => Except.ok (createTreeStr parse s k)
  | ExplorerInput.node n, _ => Except.ok (createTreeNode n)
  | ExplorerInput.other, _ => Except.error "TypeError: code.getText is not a function"

/-! ### `Explorer.matches` -/

/-- `Explorer.matches` when the argument is (or has been wrapped into)
another `Explorer`: if either handle is empty the result is `false`
(explorer.ts lines 762-764); otherwise `compareNodes` decides. -/
def matchesExp (t o : Option Node) : Bool :=
  if t.isNone || o.isNone then false
  else compareNodes (t.getD nodeNull) (o.getD nodeNull)

/-- `Explorer.matches` on a string argument: the string is parsed with the
`MethodDeclaration` wrapping when the current node is a method declaration,
and plainly otherwise, then compared as above. -/
def matchesStr (parse : String → Node) (t : Option Node) (other : String) : Bool :=
  let otherExplorer :=
    if t.map Node.kind = some SKind.methodDeclaration then
      createTreeStr parse other CreateKind.methodDeclaration
    else createTreeStr parse other CreateKind.unknown
  matchesExp t otherExplorer

/-! ### Declaration search and name lookup -/

/-- `Explorer.findAll`: on an empty handle, nothing; when the root is a
`SourceFile`, its immediate top-level statements of the requested kind (each
wrapped in a fresh handle); and when the root node itself has the requested
kind, the root as well.  No recursion into nested scopes. -/
def findAll (t : Option Node) (k : SKind) : List (Option Node) :=
  match t with
  | none => []
  | some root =>
    (if root.kind = SKind.sourceFile then
      (root.statements.filter (fun s => s.kind = k)).map explorerOfNode
     else []) ++
    (if root.kind = k then [explorerOfNode root] else [])

/-- `Explorer.findVariables`. -/
def findVariables (t : Option Node) : List (Option Node) :=
  findAll t SKind.variableStatement

/-- `Explorer.findVariable`: the first variable statement whose FIRST
declarator is named `name` (`declarationList.declarations[0].name`).  The
`none` branch of the callback is unreachable for parser-produced statements
(their text is never blank, so the handle wraps the statement itself). -/
def findVariable (t : Option Node) (name : String) : Option Node :=
  ((findVariables t).find? (fun v =>
    match v with
    | some vs => firstDeclName vs == name
    | none => false)).getD none

/-- `Explorer.hasVariable`. -/
def hasVariable (t : Option Node) (name : String) : Bool :=
  !(findVariable t name).isNone

/-- `Explorer.getAnnotation`: the wrapped type annotation of a variable
statement (first declarator), parameter, class property, or type alias;
empty otherwise. -/
def getAnnot (t : Option Node) : Option Node :=
  match t with
  | none => none
  | some node =>
    if node.kind = SKind.variableStatement then
      match (node.declarationList.declarations.headD nodeNull).typeAnnot with
      | some ty => explorerOfNode ty
      | none => none
    else if node.kind = SKind.parameter then
      match node.typeAnnot with
      | some ty => explorerOfNode ty
      | none => none
    else if node.kind = SKind.propertyDeclaration then
      match node.typeAnnot with
      | some ty => explorerOfNode ty
      | none => none
    else if node.kind = SKind.typeAliasDeclaration then
      explorerOfNode node.aliasType
    else none

/-- `Explorer.hasAnnotation`: parse the expected annotation in type context
and compare it against `getAnnotation()`. -/
def hasAnnot (parse : String → Node) (t : Option Node) (value : String) : Bool :=
  let currentAnnot := getAnnot t
  if currentAnnot.isNone then false
  else
    match createTreeStr parse value CreateKind.typeReference with
    | none => false
    | some node => matchesExp currentAnnot (explorerOfNode node)

/-- `Explorer.findFunctions`: top-level function declarations, plus (when
`withVariables`) variable statements whose first declarator is initialized
with an arrow function or function expression. -/
def findFunctions (t : Option Node) (withVariables : Bool) : List (Option Node) :=
  let functionDeclarations := findAll t SKind.functionDeclaration
  if !withVariables then functionDeclarations
  else
    let variableStatements := findAll t SKind.variableStatement
    let functionVariables := variableStatements.filter (fun v =>
      match v with
      | some vs =>
        match (vs.declarationList.declarations.headD nodeNull).declInit with
        | none => false
        | some ini =>
          ini.kind = SKind.arrowFunction || ini.kind = SKind.functionExpression
      | none => false)
    functionDeclarations ++ functionVariables

/-- `Explorer.findFunction`. -/
def findFunction (t : Option Node) (name : String) (withVariables : Bool) : Option Node :=
  ((findFunctions t withVariables).find? (fun f =>
    match f with
    | some fn =>
      if fn.kind = SKind.functionDeclaration then fnName fn == name
      else if fn.kind = SKind.variableStatement then firstDeclName fn == name
      else false
    | none => false)).getD none

/-- `Explorer.hasFunction`. -/
def hasFunction (t : Option Node) (name : String) (withVariables : Bool) : Bool :=
  !(findFunction t name withVariables).isNone

/-- `Explorer.getParameters`. -/
def getParameters (t : Option Node) : List (Option Node) :=
  match t with
  | none => []
  | some tree =>
    if tree.kind = SKind.functionDeclaration then tree.parameters.map explorerOfNode
    else if tree.kind = SKind.variableStatement then
      match (tree.declarationList.declarations.headD nodeNull).declInit with
      | some ini =>
        if ini.kind = SKind.arrowFunction || ini.kind = SKind.functionExpression then
          ini.parameters.map explorerOfNode
        else []
      | none => []
    else []

/-- `Explorer.hasReturnAnnotation`: locate the function-like node (directly,
or behind a variable statement's initializer), then compare its declared
return type against the expected string. -/
def hasReturnAnnot (parse : String → Node) (t : Option Node) (value : String) : Bool :=
  match t with
  | none => false
  | some tree =>
    let functionNode : Option Node :=
      if tree.kind = SKind.functionDeclaration then some tree
      else if tree.kind = SKind.methodDeclaration then some tree
      else if tree.kind = SKind.arrowFunction ||
              tree.kind = SKind.functionExpression then some tree
      else if tree.kind = SKind.variableStatement then
        match (tree.declarationList.declarations.headD nodeNull).declInit with
        | some ini =>
          if ini.kind = SKind.arrowFunction || ini.kind = SKind.functionExpression then
            some ini
          else none
        | none => none
      else none
    match functionNode with
    | some fn =>
      match fn.typeAnnot with
      | some ty => matchesStr parse (explorerOfNode ty) value
      | none => false
    | none => false

/-! ### `permutate` / `combine` and the union/intersection shape checks -/

/-- The pairs `(array[i], array without index i)` in index order: the choice
the outer `for` loop of `permutate` makes at each step. -/
def selections : List String → List (String × List String)
  | [] => []
  | x :: xs => (x, xs) :: (selections xs).map (fun p => (p.1, x :: p.2))

theorem selections_length_snd {l : List String} {p : String × List String}
    (h : p ∈ selections l) : p.2.length + 1 = l.length := by
  induction l generalizing p with
  | nil => simp [selections] at h
  | cons x xs ih =>
    simp only [selections, List.mem_cons, List.mem_map] at h
    rcases h with h | ⟨q, hq, rfl⟩
    · subst h
      simp
    · have := ih hq
      simp
      omega

theorem selections_perm {l : List String} {p : String × List String}
    (h : p ∈ selections l) : (p.1 :: p.2).Perm l := by
  induction l generalizing p with
  | nil => simp [selections] at h
  | cons x xs ih =>
    simp only [selections, List.mem_cons, List.mem_map] at h
    rcases h with h | ⟨q, hq, rfl⟩
    · subst h
      exact List.Perm.refl _
    · exact (List.Perm.swap x q.1 q.2).trans (List.Perm.cons x (ih hq))

theorem selections_mem_of_mem {l : List String} {a : String} (h : a ∈ l) :
    ∃ r, (a, r) ∈ selections l := by
  induction l with
  | nil => simp at h
  | cons x xs ih =>
    rcases List.mem_cons.mp h with rfl | h
    · exact ⟨xs, by simp [selections]⟩
    · obtain ⟨r, hr⟩ := ih h
      exact ⟨x :: r, by
        simp only [selections, List.mem_cons, List.mem_map]
        exact Or.inr ⟨(a, r), hr, rfl⟩⟩

/-- `permutate` of explorer.ts: all permutations of the input, built by
choosing each element in turn as the head. -/
def permutate (array : List String) : List (List String) :=
  if array.isEmpty then [[]]
  else (selections array).attach.flatMap
    (fun p => (permutate p.val.2).map (fun perm => p.val.1 :: perm))
termination_by array.length
decreasing_by
  have := selections_length_snd p.property
  have hne : array ≠ [] := by
    intro h
    subst h
    simp at *
  cases array with
  | nil => exact absurd rfl hne
  | cons x xs =>
    simp at this ⊢
    omega

theorem permutate_nil : permutate [] = [[]] := by
  unfold permutate
  rfl

theorem permutate_eq_of_ne_nil (array : List String) (h : ¬ array.isEmpty) :
    permutate array =
      (selections array).flatMap
        (fun p => (permutate p.2).map (fun perm => p.1 :: perm)) := by
  rw [permutate, if_neg h]
  have e := @List.flatMap_subtype (String × List String) (List String)
    (fun x => x ∈ selections array) ((selections array).attach)
    (fun p => List.map (fun perm => p.val.1 :: perm) (permutate p.val.2))
    (fun p => List.map (fun perm => p.1 :: perm) (permutate p.2))
    (fun x hx => rfl)
  rw [e, List.unattach_attach]

theorem mem_permutate_nil (p : List String) : p ∈ permutate [] ↔ p.Perm [] := by
  rw [permutate_nil]
  simp [List.perm_nil]

theorem mem_permutate_aux (N : Nat) :
    ∀ l p : List String, l.length ≤ N → (p ∈ permutate l ↔ p.Perm l) := by
  induction N with
  | zero =>
    intro l p hl
    have hnil : l = [] := by
      cases l with
      | nil => rfl
      | cons x xs => simp at hl
    subst hnil
    exact mem_permutate_nil p
  | succ N ih =>
    intro l p hl
    by_cases he : l.isEmpty
    · have hnil : l = [] := by
        cases l with
        | nil => rfl
        | cons x xs => simp at he
      subst hnil
      exact mem_permutate_nil p
    · rw [permutate_eq_of_ne_nil l he, List.mem_flatMap]
      constructor
      · rintro ⟨q, hq, hp⟩
        rw [List.mem_map] at hp
        obtain ⟨perm, hperm, rfl⟩ := hp
        have hlen : q.2.length ≤ N := by
          have := selections_length_snd hq
          omega
        have h1 : perm.Perm q.2 := (ih q.2 perm hlen).mp hperm
        exact (h1.cons q.1).trans (selections_perm hq)
      · intro hp
        cases p with
        | nil =>
          have : l = [] := (List.perm_nil.mp hp.symm)
          subst this
          simp at he
        | cons a p' =>
          have ha : a ∈ l := hp.mem_iff.mp (List.mem_cons_self a p')
          obtain ⟨r, hr⟩ := selections_mem_of_mem ha
          have har : (a :: r).Perm l := selections_perm hr
          have hp' : p'.Perm r := (hp.trans har.symm).cons_inv
          have hlen : r.length ≤ N := by
            have hs := selections_length_snd hr
            simp only [] at hs
            have hs2 : r.length + 1 = l.length := hs
            omega
          refine ⟨(a, r), hr, ?_⟩
          rw [List.mem_map]
          exact ⟨p', (ih r p' hlen).mpr hp', rfl⟩

/-- Membership in `permutate`: exactly the permutations of the input. -/
theorem mem_permutate {l p : List String} : p ∈ permutate l ↔ p.Perm l :=
  mem_permutate_aux l.length l p (le_refl _)

/-- `combine` of explorer.ts: join each group with the separator. -/
def combine (array : List (List String)) (symbol : String) : List String :=
  if array.isEmpty then []
  else array.map (fun group => String.intercalate symbol group)

theorem combine_eq_map (array : List (List String)) (symbol : String) :
    combine array symbol = array.map (fun group => String.intercalate symbol group) := by
  cases array <;> simp [combine]

/-- `Explorer.isUnionOf`: the node must be a `UnionType`, and must
structurally match one of the permutations of the expected names joined with
`" | "` (each parsed in type context). -/
def isUnionOf (parse : String → Node) (t : Option Node) (types : List String) : Bool :=
  match t with
  | none => false
  | some n =>
    if n.kind ≠ SKind.unionType then false
    else
      (combine (permutate types) " | ").any (fun expected =>
        matchesExp (some n) (createTreeStr parse expected CreateKind.typeReference))

/-- `Explorer.isIntersectionOf`: dual to `isUnionOf` with `" & "`. -/
def isIntersectionOf (parse : String → Node) (t : Option Node) (types : List String) : Bool :=
  match t with
  | none => false
  | some n =>
    if n.kind ≠ SKind.intersectionType then false
    else
      (combine (permutate types) " & ").any (fun expected =>
        matchesExp (some n) (createTreeStr parse expected CreateKind.typeReference))

/-! ### `Explorer.hasTypeProp` (first revision, explorer.ts lines 525-614) -/

/-- The `findMembers` helper of `hasTypeProp`: the member list of an
interface body, a type literal (directly, behind a type alias, behind the
first declarator's annotation of a variable statement, or behind a
parameter's annotation); `none` otherwise. -/
def findMembers (tree : Node) : Option (List Node) :=
  if tree.kind = SKind.variableStatement then
    match (tree.declarationList.declarations.headD nodeNull).typeAnnot with
    | some ty => if ty.kind = SKind.typeLiteral then some ty.members else none
    | none => none
  else if tree.kind = SKind.interfaceDeclaration then some tree.members
  else if tree.kind = SKind.typeAliasDeclaration then
    if tree.aliasType.kind = SKind.typeLiteral then some tree.aliasType.members
    else none
  else if tree.kind = SKind.typeLiteral then some tree.members
  else if tree.kind = SKind.parameter then
    match tree.typeAnnot with
    | some ty => if ty.kind = SKind.typeLiteral then some ty.members else none
    | none => none
  else none

/-- `Explorer.hasTypeProp`: find the first member whose name is the given
identifier; then, when an expected type is supplied, the member must be a
`PropertySignature` whose annotation structurally matches it (parsed in type
context); when an optionality flag is supplied, a `PropertySignature`
member's `?` marker must agree with it — for any other member kind the
optionality check is skipped by the code. -/
def hasTypeProp (parse : String → Node) (t : Option Node) (name : String)
    (type? : Option String) (isOptional? : Option Bool) : Bool :=
  match t with
  | none => false
  | some tree =>
    match findMembers tree with
    | none => false
    | some members =>
      match members.find? (fun m =>
        (m.childAt 0).kind = SKind.identifier && (m.childAt 0).text == name) with
      | none => false
      | some member =>
        (match type? with
         | none => true
         | some expected =>
           if member.kind = SKind.propertySignature then
             match member.typeAnnot with
             | none => false
             | some memberType =>
               matchesExp (explorerOfNode memberType)
                 (createTreeStr parse expected CreateKind.typeReference)
           else false) &&
        (match isOptional? with
         | none => true
         | some flag =>
           if member.kind = SKind.propertySignature then
             member.hasQuestionToken == flag
           else true)

/-- `Explorer.hasTypeProps`: every requested property must be present. -/
def hasTypeProps (parse : String → Node) (t : Option Node)
    (props : List (String × Option String × Option Bool)) : Bool :=
  props.all (fun prop => hasTypeProp parse t prop.1 prop.2.1 prop.2.2)

/-! ### Concrete trees

Hand-translations of the full syntax trees the TS parser
(`createSourceFile`, `ScriptKind.TS`) produces for the concrete fragments
exercised by the testable properties.  Leaf tokens carry their exact source
text (`getText()`); non-leaf nodes carry their source span. -/

def tokSemi : Node := Node.mk SKind.semicolonToken ";" []
def tokComma : Node := Node.mk SKind.commaToken "," []
def tokColon : Node := Node.mk SKind.colonToken ":" []
def tokEquals : Node := Node.mk SKind.equalsToken "=" []
def tokQuestion : Node := Node.mk SKind.questionToken "?" []
def tokOpenBrace : Node := Node.mk SKind.openBraceToken "\x7b" []
def tokCloseBrace : Node := Node.mk SKind.closeBraceToken "\x7d" []
def tokOpenParen : Node := Node.mk SKind.openParenToken "(" []
def tokCloseParen : Node := Node.mk SKind.closeParenToken ")" []
def tokBar : Node := Node.mk SKind.barToken "|" []
def tokAmp : Node := Node.mk SKind.ampersandToken "&" []
def kwConst : Node := Node.mk SKind.constKeyword "const" []
def kwLet : Node := Node.mk SKind.letKeyword "let" []
def kwFunction : Node := Node.mk SKind.functionKeyword "function" []
def kwInterface : Node := Node.mk SKind.interfaceKeyword "interface" []
def kwReturn : Node := Node.mk SKind.returnKeyword "return" []
def kwNumber : Node := Node.mk SKind.numberKeyword "number" []
def kwString : Node := Node.mk SKind.stringKeyword "string" []
def kwVoid : Node := Node.mk SKind.voidKeyword "void" []
def eofTok : Node := Node.mk SKind.endOfFileToken "" []

def identN (s : String) : Node := Node.mk SKind.identifier s []
def numLit (s : String) : Node := Node.mk SKind.numericLiteral s []
def strLit (s : String) : Node := Node.mk SKind.stringLiteral s []
def synL (t : String) (cs : List Node) : Node := Node.mk SKind.synList t cs

/-- The statement `const a = 1;`. -/
def stmtConstA : Node :=
  Node.mk SKind.variableStatement "const a = 1;"
    [Node.mk SKind.variableDeclarationList "const a = 1"
      [kwConst,
       synL "a = 1"
         [Node.mk SKind.variableDeclaration "a = 1"
           [identN "a", tokEquals, numLit "1"]]],
     tokSemi]

/-- The statement parsed from `" const a =  1"`: same token structure, no
trailing semicolon, and different interior whitespace (visible only in the
source spans of the non-leaf nodes). -/
def stmtConstAWs : Node :=
  Node.mk SKind.variableStatement "const a =  1"
    [Node.mk SKind.variableDeclarationList "const a =  1"
      [kwConst,
       synL "a =  1"
         [Node.mk SKind.variableDeclaration "a =  1"
           [identN "a", tokEquals, numLit "1"]]]]

/-- The statement `const a = 'x';` (single-quoted string literal: the
`StringLiteral` token's `getText()` keeps the quotes). -/
def stmtQuoteSingle : Node :=
  Node.mk SKind.variableStatement "const a = 'x';"
    [Node.mk SKind.variableDeclarationList "const a = 'x'"
      [kwConst,
       synL "a = 'x'"
         [Node.mk SKind.variableDeclaration "a = 'x'"
           [identN "a", tokEquals, strLit "'x'"]]],
     tokSemi]

/-- The statement `const a = "x";` (double-quoted). -/
def stmtQuoteDouble : Node :=
  Node.mk SKind.variableStatement "const a = \"x\";"
    [Node.mk SKind.variableDeclarationList "const a = \"x\""
      [kwConst,
       synL "a = \"x\""
         [Node.mk SKind.variableDeclaration "a = \"x\""
           [identN "a", tokEquals, strLit "\"x\""]]],
     tokSemi]

/-- `function foo() { return 42; }`. -/
def fooFn : Node :=
  Node.mk SKind.functionDeclaration "function foo() \x7b return 42; \x7d"
    [kwFunction, identN "foo", tokOpenParen, synL "" [], tokCloseParen,
     Node.mk SKind.block "\x7b return 42; \x7d"
       [tokOpenBrace,
        synL "return 42;"
          [Node.mk SKind.returnStatement "return 42;" [kwReturn, numLit "42", tokSemi]],
        tokCloseBrace]]

/-- `function baz() { return 24; }` — the function nested inside `bar`. -/
def bazFn : Node :=
  Node.mk SKind.functionDeclaration "function baz() \x7b return 24; \x7d"
    [kwFunction, identN "baz", tokOpenParen, synL "" [], tokCloseParen,
     Node.mk SKind.block "\x7b return 24; \x7d"
       [tokOpenBrace,
        synL "return 24;"
          [Node.mk SKind.returnStatement "return 24;" [kwReturn, numLit "24", tokSemi]],
        tokCloseBrace]]

/-- `function bar() { function baz() { return 24; } }`. -/
def barFn : Node :=
  Node.mk SKind.functionDeclaration
    "function bar() \x7b function baz() \x7b return 24; \x7d \x7d"
    [kwFunction, identN "bar", tokOpenParen, synL "" [], tokCloseParen,
     Node.mk SKind.block "\x7b function baz() \x7b return 24; \x7d \x7d"
       [tokOpenBrace,
        synL "function baz() \x7b return 24; \x7d" [bazFn],
        tokCloseBrace]]

/-- The two-statement source file
`function foo() { return 42; } function bar() { function baz() { return 24; } }`
(two top-level statements, so the handle keeps the whole file). -/
def outerSF : Node :=
  Node.mk SKind.sourceFile
    "function foo() \x7b return 42; \x7d function bar() \x7b function baz() \x7b return 24; \x7d \x7d"
    [synL "function foo() \x7b return 42; \x7d function bar() \x7b function baz() \x7b return 24; \x7d \x7d"
      [fooFn, barFn],
     eofTok]

/-- The member `name: string;` of `interface User`. -/
def psName : Node :=
  Node.mk SKind.propertySignature "name: string;"
    [identN "name", tokColon, kwString, tokSemi]

/-- The member `age?: number;` of `interface User`. -/
def psAge : Node :=
  Node.mk SKind.propertySignature "age?: number;"
    [identN "age", tokQuestion, tokColon, kwNumber, tokSemi]

/-- `interface User { name: string; age?: number; }`. -/
def userInterface : Node :=
  Node.mk SKind.interfaceDeclaration
    "interface User \x7b name: string; age?: number; \x7d"
    [kwInterface, identN "User", tokOpenBrace,
     synL "name: string; age?: number;" [psName, psAge],
     tokCloseBrace]

/-- `interface I { m?(): void; }` — an optional METHOD signature member. -/
def iMethodOpt : Node :=
  Node.mk SKind.interfaceDeclaration "interface I \x7b m?(): void; \x7d"
    [kwInterface, identN "I", tokOpenBrace,
     synL "m?(): void;"
       [Node.mk SKind.methodSignature "m?(): void;"
         [identN "m", tokQuestion, tokOpenParen, synL "" [], tokCloseParen,
          tokColon, kwVoid, tokSemi]],
     tokCloseBrace]

/-- The statement `const a = 1, b = 2;` — one declaration list, two
declarators. -/
def stmtConstAB : Node :=
  Node.mk SKind.variableStatement "const a = 1, b = 2;"
    [Node.mk SKind.variableDeclarationList "const a = 1, b = 2"
      [kwConst,
       synL "a = 1, b = 2"
         [Node.mk SKind.variableDeclaration "a = 1" [identN "a", tokEquals, numLit "1"],
          tokComma,
          Node.mk SKind.variableDeclaration "b = 2" [identN "b", tokEquals, numLit "2"]]],
     tokSemi]

/-- The statement `let a: number, b: string;` — two annotated declarators. -/
def stmtLetAnnAB : Node :=
  Node.mk SKind.variableStatement "let a: number, b: string;"
    [Node.mk SKind.variableDeclarationList "let a: number, b: string"
      [kwLet,
       synL "a: number, b: string"
         [Node.mk SKind.variableDeclaration "a: number" [identN "a", tokColon, kwNumber],
          tokComma,
          Node.mk SKind.variableDeclaration "b: string" [identN "b", tokColon, kwString]]],
     tokSemi]

/-- A named type reference such as `A`. -/
def typeRefNode (name : String) : Node :=
  Node.mk SKind.typeReference name [identN name]

def barSepNodes : List String → List Node
  | [] => []
  | [n] => [typeRefNode n]
  | n :: rest => typeRefNode n :: tokBar :: barSepNodes rest

def ampSepNodes : List String → List Node
  | [] => []
  | [n] => [typeRefNode n]
  | n :: rest => typeRefNode n :: tokAmp :: ampSepNodes rest

/-- The `UnionType` node for `n₁ | n₂ | ...`. -/
def unionNode (names : List String) : Node :=
  Node.mk SKind.unionType (String.intercalate " | " names)
    [synL (String.intercalate " | " names) (barSepNodes names)]

/-- The `IntersectionType` node for `n₁ & n₂ & ...`. -/
def interNode (names : List String) : Node :=
  Node.mk SKind.intersectionType (String.intercalate " & " names)
    [synL (String.intercalate " & " names) (ampSepNodes names)]

/-- The source file for `let _: <ty>;` (the wrapping `createTree` uses for
type-context parses). -/
def letSF (ty : Node) (tyText : String) : Node :=
  Node.mk SKind.sourceFile ("let _: " ++ tyText ++ ";")
    [synL ("let _: " ++ tyText ++ ";")
      [Node.mk SKind.variableStatement ("let _: " ++ tyText ++ ";")
        [Node.mk SKind.variableDeclarationList ("let _: " ++ tyText)
          [kwLet,
           synL ("_: " ++ tyText)
             [Node.mk SKind.variableDeclaration ("_: " ++ tyText)
               [identN "_", tokColon, ty]]],
         tokSemi]],
     eofTok]

/-- A concrete instance of the external parser capability: the finite table
of fragments our concrete theorems feed to it, mapped to the trees the TS
parser produces for them. -/
def parseT (s : String) : Node :=
  if s = "let _: number;" then letSF kwNumber "number"
  else if s = "let _: A | B;" then letSF (unionNode ["A", "B"]) "A | B"
  else if s = "let _: B | A;" then letSF (unionNode ["B", "A"]) "B | A"
  else if s = "let _: A | C;" then letSF (unionNode ["A", "C"]) "A | C"
  else if s = "let _: C | A;" then letSF (unionNode ["C", "A"]) "C | A"
  else if s = "let _: A | B | C;" then letSF (unionNode ["A", "B", "C"]) "A | B | C"
  else if s = "let _: A | C | B;" then letSF (unionNode ["A", "C", "B"]) "A | C | B"
  else if s = "let _: B | A | C;" then letSF (unionNode ["B", "A", "C"]) "B | A | C"
  else if s = "let _: B | C | A;" then letSF (unionNode ["B", "C", "A"]) "B | C | A"
  else if s = "let _: C | A | B;" then letSF (unionNode ["C", "A", "B"]) "C | A | B"
  else if s = "let _: C | B | A;" then letSF (unionNode ["C", "B", "A"]) "C | B | A"
  else if s = "let _: A & B;" then letSF (interNode ["A", "B"]) "A & B"
  else if s = "let _: B & A;" then letSF (interNode ["B", "A"]) "B & A"
  else nodeNull

attribute [simp] Node.childAt Node.statements Node.declarationList Node.declarations
  afterTok Node.typeAnnot Node.declInit Node.aliasType Node.members Node.parameters
  Node.hasQuestionToken firstDeclName fnName isJsWs strTrim createTreeNode explorerOfNode
  nodeNull identN numLit strLit synL tokSemi tokComma tokColon tokEquals tokQuestion
  tokOpenBrace tokCloseBrace tokOpenParen tokCloseParen tokBar tokAmp kwConst kwLet
  kwFunction kwInterface kwReturn kwNumber kwString kwVoid eofTok typeRefNode barSepNodes
  ampSepNodes unionNode interNode letSF

/-! ## The claims -/

/-- Claim C1 (code bug): evaluating `matches` at the empty cases.  The spec
and the repository's own test (`expect(new Explorer().matches("")).toBe(true)`)
require an empty handle compared against empty text to yield `true`; but
`Explorer.matches` (explorer.ts lines 762-764) returns `false` whenever
either side is empty — including when both are.  The one-side-empty cases do
return `false` as the claim demands. -/
theorem c1_empty_matches_eval :
    matchesStr parseT none "" = false ∧
    matchesStr parseT (some stmtConstA) "" = false ∧
    matchesExp none (some stmtConstA) = false ∧
    matchesExp (some stmtConstA) none = false :=
  ⟨rfl, rfl, rfl, rfl⟩

/-- Claim C2 (counterexample): the parse trees of `const a = 'x';` and
`const a = "x";` have identical structure and differ only in the string
literal's quote style, yet `matches` returns `false`: the leaf comparison is
the raw `getText()`, which keeps the quotes, so `'x'` and `"x"` compare
UNequal — the claimed quote-style normalization does not happen in
`Explorer.matches`. -/
theorem c2_quote_styles_counterexample :
    matchesExp (some stmtQuoteSingle) (some stmtQuoteDouble) = false := by
  simp +decide [matchesExp, compareNodes, compareList, filterChildren, stmtQuoteSingle,
    stmtQuoteDouble]

/-- Claim C2 (amended): `matches` is insensitive to whitespace and trailing
semicolons, but not to quote style: whenever two parse trees agree on node
kinds and raw leaf text after dropping semicolon tokens (whitespace never
reaches the tree, and interior source spans are not compared), `matches`
returns `true`. -/
theorem c2_semicolon_whitespace_insensitive (t1 t2 : Node) (h : strip t1 = strip t2) :
    matchesExp (some t1) (some t2) = true := by
  simp only [matchesExp, Option.isNone_some, Bool.or_self, Bool.false_eq_true, if_false,
    Option.getD_some]
  exact compareNodes_of_strip_eq t1 t2 h

/-- Witness for C2: `const a = 1;` and `" const a =  1"` (extra whitespace,
no trailing semicolon) normalize identically and match. -/
theorem c2_semicolon_whitespace_insensitive_witness :
    matchesExp (some stmtConstA) (some stmtConstAWs) = true :=
  c2_semicolon_whitespace_insensitive stmtConstA stmtConstAWs (by
    simp [strip, stripList, filterChildren, stmtConstA, stmtConstAWs])

/-- Claim C3 (code bug): structural match IS reflexive on every handle that
holds a node, but fails to be reflexive on blank fragments: `new
Explorer("").matches("")` and `new Explorer("   ").matches("   ")` evaluate
to `false` because `matches` returns `false` whenever either handle is empty
— while the claim (and the repo's test of empty-vs-empty `matches`) says
`true`. -/
theorem c3_reflexivity_blank_fails :
    matchesStr parseT (createTreeStr parseT "" CreateKind.unknown) "" = false ∧
    matchesStr parseT (createTreeStr parseT "   " CreateKind.unknown) "   " = false ∧
    (∀ t : Node, matchesExp (some t) (some t) = true) := by
  refine ⟨rfl, rfl, ?_⟩
  intro t
  simp only [matchesExp, Option.isNone_some, Bool.or_self, Bool.false_eq_true, if_false,
    Option.getD_some]
  exact compareNodes_refl t

/-- Claim C4: `findAll` inspects only the immediate top-level statement list
(or the root node itself): every result is a top-level statement of a
source-file root of the requested kind, or the root itself when its own kind
matches; a handle positioned on an inner node finds it via the root check.
Concretely, in `function foo() { return 42; } function bar() { function baz()
{ return 24; } }` the search finds `foo` and `bar` but never the nested
`baz`, while a handle positioned on `baz` itself does find it. -/
theorem c4_search_top_level_only :
    (∀ (t : Node) (k : SKind) (e : Option Node), e ∈ findAll (some t) k →
      (t.kind = SKind.sourceFile ∧ ∃ s ∈ t.statements, s.kind = k ∧ e = explorerOfNode s) ∨
      (t.kind = k ∧ e = explorerOfNode t)) ∧
    (∀ (t : Node) (k : SKind), t.kind = k → explorerOfNode t ∈ findAll (some t) k) ∧
    findAll (some outerSF) SKind.functionDeclaration = [some fooFn, some barFn] ∧
    some bazFn ∉ findAll (some outerSF) SKind.functionDeclaration ∧
    findAll (some bazFn) SKind.functionDeclaration = [some bazFn] := by
  refine ⟨?_, ?_, rfl, ?_, rfl⟩
  · intro t k e he
    simp only [findAll] at he
    rw [List.mem_append] at he
    rcases he with he | he
    · by_cases h1 : t.kind = SKind.sourceFile
      · rw [if_pos h1] at he
        rw [List.mem_map] at he
        obtain ⟨s, hs, rfl⟩ := he
        rw [List.mem_filter] at hs
        left
        refine ⟨h1, s, hs.1, ?_, rfl⟩
        simpa using hs.2
      · rw [if_neg h1] at he
        simp at he
    · by_cases h2 : t.kind = k
      · rw [if_pos h2] at he
        simp at he
        right
        exact ⟨h2, he⟩
      · rw [if_neg h2] at he
        simp at he
  · intro t k hk
    simp only [findAll]
    rw [List.mem_append]
    right
    rw [if_pos hk]
    simp
  · rw [show findAll (some outerSF) SKind.functionDeclaration = [some fooFn, some barFn]
      from rfl]
    simp +decide [fooFn, barFn, bazFn]

/-- Witness for C4: the membership characterization applied to the concrete
result `foo`, and the root check applied to the nested `baz`. -/
theorem c4_search_top_level_only_witness :
    ((outerSF.kind = SKind.sourceFile ∧ ∃ s ∈ outerSF.statements,
        s.kind = SKind.functionDeclaration ∧ some fooFn = explorerOfNode s) ∨
      (outerSF.kind = SKind.functionDeclaration ∧ some fooFn = explorerOfNode outerSF)) ∧
    explorerOfNode bazFn ∈ findAll (some bazFn) SKind.functionDeclaration :=
  ⟨c4_search_top_level_only.1 outerSF SKind.functionDeclaration (some fooFn) (by
      rw [show findAll (some outerSF) SKind.functionDeclaration = [some fooFn, some barFn]
        from rfl]
      simp),
   c4_search_top_level_only.2.1 bazFn SKind.functionDeclaration rfl⟩

/-- Claim C5 (counterexample): in `interface I { m?(): void; }` the member
`m` is an optional METHOD signature (its `?` marker is present), yet the
property query with expected optionality `false` returns `true`: the code
only enforces the optionality constraint on `PropertySignature` members and
silently skips it for any other member kind, so a contradicting constraint
does not always give `false`. -/
theorem c5_optional_method_counterexample :
    (iMethodOpt.members.headD nodeNull).hasQuestionToken = true ∧
    hasTypeProp parseT (some iMethodOpt) "m" none (some false) = true := by
  constructor
  · rfl
  · simp +decide [hasTypeProp, findMembers, iMethodOpt, List.find?]

/-- Claim C5 (amended): when the first member carrying the queried name is a
PROPERTY signature, the query returns `true` iff every supplied constraint
holds on that member — the supplied type must structurally match the
member's annotation (parsed in type context) and the supplied optionality
flag must equal the member's `?`-marker presence; member existence is the
name lookup itself.  And the `interface User` scenario holds exactly as
stated: `("age", "number", optional := true)` succeeds, flipping the
optionality to `false` fails, a missing member name fails, and a wrong
expected type fails. -/
theorem c5_property_query_scenario :
    (∀ (parse : String → Node) (t : Node) (name : String) (type? : Option String)
        (opt? : Option Bool) (members : List Node) (member : Node),
      findMembers t = some members →
      members.find? (fun m =>
        (m.childAt 0).kind = SKind.identifier && (m.childAt 0).text == name) =
          some member →
      member.kind = SKind.propertySignature →
      (hasTypeProp parse (some t) name type? opt? = true ↔
        (∀ expected ∈ type?, ∃ mt, member.typeAnnot = some mt ∧
          matchesExp (explorerOfNode mt)
            (createTreeStr parse expected CreateKind.typeReference) = true) ∧
        (∀ flag ∈ opt?, member.hasQuestionToken = flag))) ∧
    hasTypeProp parseT (some userInterface) "age" (some "number") (some true) = true ∧
    hasTypeProp parseT (some userInterface) "age" (some "number") (some false) = false ∧
    hasTypeProp parseT (some userInterface) "email" none none = false ∧
    hasTypeProp parseT (some userInterface) "name" (some "number") none = false := by
  refine ⟨?_, ?_, ?_, ?_, ?_⟩
  case _ =>
    intro parse t name type? opt? members member hm hf hps
    simp only [hasTypeProp, hm, hf]
    rw [Bool.and_eq_true]
    apply and_congr
    · cases type? with
      | none => simp
      | some expected =>
        cases hta : member.typeAnnot with
        | none => simp [hps, hta]
        | some mt => simp [hps, hta]
    · cases opt? with
      | none => simp
      | some flag => simp [hps]
  all_goals
    simp +decide [hasTypeProp, findMembers, userInterface, psName, psAge, matchesExp,
      compareNodes, compareList, filterChildren, createTreeStr, parseT, List.find?]

/-- Witness for C5: the general property-signature characterization applied
to the member `age?: number;` of `interface User`, with no type constraint
and the optionality flag `true` (matching the member's `?` marker). -/
theorem c5_property_query_scenario_witness :
    hasTypeProp parseT (some userInterface) "age" none (some true) = true :=
  (c5_property_query_scenario.1 parseT userInterface "age" none (some true)
      [psName, psAge] psAge rfl rfl rfl).mpr
    ⟨by simp, by
      intro flag hf
      simp only [Option.mem_def, Option.some.injEq] at hf
      subst hf
      rfl⟩

set_option maxHeartbeats 4000000 in
/-- Claim C6: the union-shape check succeeds exactly when the node is a
union-type expression that structurally matches SOME permutation of the
expected names joined with `" | "` (dually for intersections with `" & "`);
concretely, `A | B` is accepted for the reordered list `["B", "A"]` and
rejected for a substituted member (`["A", "C"]`), an extra member
(`["A", "B", "C"]`), and a non-union node is always rejected. -/
theorem c6_union_permutation_characterization :
    (∀ (parse : String → Node) (n : Node) (types : List String),
      isUnionOf parse (some n) types = true ↔
        n.kind = SKind.unionType ∧ ∃ p : List String, p.Perm types ∧
          matchesExp (some n)
            (createTreeStr parse (String.intercalate " | " p)
              CreateKind.typeReference) = true) ∧
    (∀ (parse : String → Node) (n : Node) (types : List String),
      isIntersectionOf parse (some n) types = true ↔
        n.kind = SKind.intersectionType ∧ ∃ p : List String, p.Perm types ∧
          matchesExp (some n)
            (createTreeStr parse (String.intercalate " & " p)
              CreateKind.typeReference) = true) ∧
    isUnionOf parseT (some (unionNode ["A", "B"])) ["B", "A"] = true ∧
    isUnionOf parseT (some (unionNode ["A", "B"])) ["A", "C"] = false ∧
    isUnionOf parseT (some (unionNode ["A", "B"])) ["A", "B", "C"] = false ∧
    isUnionOf parseT (some (typeRefNode "A")) ["A"] = false ∧
    isIntersectionOf parseT (some (interNode ["A", "B"])) ["B", "A"] = true := by
  refine ⟨?_, ?_, ?_, ?_, ?_, ?_, ?_⟩
  · intro parse n types
    constructor
    · intro h
      simp only [isUnionOf] at h
      by_cases hk : n.kind = SKind.unionType
      · refine ⟨hk, ?_⟩
        rw [if_neg (by simp [hk])] at h
        rw [List.any_eq_true] at h
        obtain ⟨expected, hin, hmatch⟩ := h
        rw [combine_eq_map, List.mem_map] at hin
        obtain ⟨p, hp, rfl⟩ := hin
        exact ⟨p, mem_permutate.mp hp, hmatch⟩
      · rw [if_pos hk] at h
        exact absurd h (by simp)
    · rintro ⟨hk, p, hperm, hmatch⟩
      simp only [isUnionOf]
      rw [if_neg (by simp [hk])]
      rw [List.any_eq_true]
      refine ⟨String.intercalate " | " p, ?_, hmatch⟩
      rw [combine_eq_map, List.mem_map]
      exact ⟨p, mem_permutate.mpr hperm, rfl⟩
  · intro parse n types
    constructor
    · intro h
      simp only [isIntersectionOf] at h
      by_cases hk : n.kind = SKind.intersectionType
      · refine ⟨hk, ?_⟩
        rw [if_neg (by simp [hk])] at h
        rw [List.any_eq_true] at h
        obtain ⟨expected, hin, hmatch⟩ := h
        rw [combine_eq_map, List.mem_map] at hin
        obtain ⟨p, hp, rfl⟩ := hin
        exact ⟨p, mem_permutate.mp hp, hmatch⟩
      · rw [if_pos hk] at h
        exact absurd h (by simp)
    · rintro ⟨hk, p, hperm, hmatch⟩
      simp only [isIntersectionOf]
      rw [if_neg (by simp [hk])]
      rw [List.any_eq_true]
      refine ⟨String.intercalate " & " p, ?_, hmatch⟩
      rw [combine_eq_map, List.mem_map]
      exact ⟨p, mem_permutate.mpr hperm, rfl⟩
  · simp +decide [isUnionOf, matchesExp, compareNodes, compareList, filterChildren,
      createTreeStr, parseT, combine_eq_map, permutate_eq_of_ne_nil, permutate_nil, selections]
  · simp +decide [isUnionOf, matchesExp, compareNodes, compareList, filterChildren,
      createTreeStr, parseT, combine_eq_map, permutate_eq_of_ne_nil, permutate_nil, selections]
  · simp +decide [isUnionOf, matchesExp, compareNodes, compareList, filterChildren,
      createTreeStr, parseT, combine_eq_map, permutate_eq_of_ne_nil, permutate_nil, selections]
  · simp +decide [isUnionOf]
  · simp +decide [isIntersectionOf, matchesExp, compareNodes, compareList, filterChildren,
      createTreeStr, parseT, combine_eq_map, permutate_eq_of_ne_nil, permutate_nil, selections]

/-- Claim C7: comparing two nodes of different kinds (declarations of
incompatible shape) always yields `false`; the comparison is a total Boolean
function, so no error is possible. -/
theorem c7_kind_mismatch_false (n1 n2 : Node) (h : n1.kind ≠ n2.kind) :
    matchesExp (some n1) (some n2) = false := by
  simp only [matchesExp, Option.isNone_some, Bool.or_self, Bool.false_eq_true, if_false,
    Option.getD_some]
  rw [compareNodes]
  rw [if_pos (bne_iff_ne.mpr h)]

/-- Witness for C7: a variable statement never matches a function
declaration. -/
theorem c7_kind_mismatch_false_witness :
    stmtConstA.kind ≠ fooFn.kind ∧ matchesExp (some stmtConstA) (some fooFn) = false :=
  ⟨by decide, c7_kind_mismatch_false stmtConstA fooFn (by decide)⟩

/-- Claim C8: the `Explorer` constructor fails (raises) exactly on a value
that is neither source text nor a syntax-tree node: a non-node object has no
`getText` method, so `createTree` raises a `TypeError`; string and node
inputs always produce a handle (possibly the empty one). -/
theorem c8_constructor_error_iff_other (parse : String → Node) (inp : ExplorerInput)
    (k : CreateKind) :
    (∃ msg, explorerNew parse inp k = Except.error msg) ↔ inp = ExplorerInput.other := by
  cases inp <;> simp [explorerNew]

/-- Claim C9: emptiness is terminal — every query operation on the empty
handle returns its negative result (empty list, empty handle, or `false`)
and, being a total function, never raises. -/
theorem c9_empty_handle_terminal (parse : String → Node) (k : SKind) (name value : String)
    (type? : Option String) (opt? : Option Bool) (types : List String) (wv : Bool) :
    findAll none k = [] ∧
    findVariables none = [] ∧
    findVariable none name = none ∧
    hasVariable none name = false ∧
    getAnnot none = none ∧
    hasAnnot parse none value = false ∧
    findFunctions none wv = [] ∧
    findFunction none name wv = none ∧
    hasFunction none name wv = false ∧
    getParameters none = [] ∧
    hasReturnAnnot parse none value = false ∧
    isUnionOf parse none types = false ∧
    isIntersectionOf parse none types = false ∧
    hasTypeProp parse none name type? opt? = false := by
  refine ⟨rfl, rfl, rfl, rfl, rfl, rfl, ?_, ?_, ?_, rfl, rfl, rfl, rfl, rfl⟩
  · cases wv <;> rfl
  · cases wv <;> rfl
  · cases wv <;> rfl

/-- Claim C10: name lookup on variable statements consults only the FIRST
declarator: any successful `findVariable` result has the looked-up name as
its first declarator's name; and on `const a = 1, b = 2;` the lookup finds
`a` but reports `b` absent, while annotation extraction on
`let a: number, b: string;` returns only the first declarator's annotation
(`number`). -/
theorem c10_first_declarator_only :
    (∀ (t : Option Node) (name : String) (vs : Node),
      findVariable t name = some vs → firstDeclName vs = name) ∧
    findVariable (some stmtConstAB) "a" = some stmtConstAB ∧
    hasVariable (some stmtConstAB) "a" = true ∧
    findVariable (some stmtConstAB) "b" = none ∧
    hasVariable (some stmtConstAB) "b" = false ∧
    getAnnot (some stmtLetAnnAB) = some kwNumber := by
  refine ⟨?_, rfl, rfl, rfl, rfl, rfl⟩
  intro t name vs h
  unfold findVariable at h
  cases hf : (findVariables t).find? (fun v =>
      match v with
      | some vs => firstDeclName vs == name
      | none => false) with
  | none =>
    rw [hf] at h
    simp at h
  | some v =>
    rw [hf] at h
    have hp := List.find?_some hf
    cases v with
    | none => simp at hp
    | some w =>
      simp only [Option.getD_some] at h
      rw [h] at hp
      simpa using hp

/-- Witness for C10: the found statement for `"a"` indeed has `a` as its
first declarator's name. -/
theorem c10_first_declarator_only_witness : firstDeclName stmtConstAB = "a" :=
  c10_first_declarator_only.1 (some stmtConstAB) "a" stmtConstAB (by rfl)
